import Mathlib

/-!
Verification of the currency-converter core (`currency_converter/rates.py` and
the API layer of `currency_converter/app.py`).

Python `Decimal` values are embedded as rationals `ℚ`; the working context
`getcontext().prec = 28` makes every inexact division and multiplication round
its exact result to 28 significant digits (banker's rounding, the context
default `ROUND_HALF_EVEN`).  `roundSig` below implements that rounding on `ℚ`,
and `decDiv` / `decMul` are the context-governed arithmetic operations.
-/

set_option maxRecDepth 2048

namespace CurrencyConverter

/-- Number of base-10 digits of a natural number (0 has no digits). -/
def numDigits (n : ℕ) : ℕ := (Nat.digits 10 n).length

/-- `getcontext().prec = 28` in `rates.py`. -/
def PREC : ℕ := 28

/-- Magnitude of a nonzero rational: the unique `m` with `10^(m-1) ≤ |q| < 10^m`. -/
def mag (q : ℚ) : ℤ :=
  let k : ℤ := (numDigits q.num.natAbs : ℤ) - (numDigits q.den : ℤ)
  if (10 : ℚ) ^ k ≤ |q| then k + 1 else k

/-- Round to the nearest integer, ties to the even neighbour
(`ROUND_HALF_EVEN`, the `decimal` context default used by `/` and `*`). -/
def roundHalfEven (y : ℚ) : ℤ :=
  if y - ⌊y⌋ = 1 / 2 then (if 2 ∣ ⌊y⌋ then ⌊y⌋ else ⌊y⌋ + 1) else round y

/-- Round to the nearest integer, ties away from zero (`ROUND_HALF_UP`,
used explicitly by `format_decimal`). -/
def roundHalfUp (y : ℚ) : ℤ :=
  if 0 ≤ y then ⌊y + 1 / 2⌋ else -⌊-y + 1 / 2⌋

/-- Round a rational to `PREC` (28) significant decimal digits, as the
`decimal` context does with every inexact arithmetic result. -/
def roundSig (q : ℚ) : ℚ :=
  if q = 0 then 0
  else (roundHalfEven (q * (10 : ℚ) ^ ((PREC : ℤ) - mag q)) : ℚ) * (10 : ℚ) ^ (mag q - (PREC : ℤ))

/-- `Decimal` division under the 28-digit context (`amount / src_rate`). -/
def decDiv (a b : ℚ) : ℚ := roundSig (a / b)

/-- `Decimal` multiplication under the 28-digit context (`usd_amount * dst_rate`). -/
def decMul (a b : ℚ) : ℚ := roundSig (a * b)

/-- `DECIMAL_PLACES = 4` in `rates.py`. -/
def DECIMAL_PLACES : ℕ := 4

/-- `CACHE_TTL_SECONDS = 60 * 60` in `rates.py`. -/
def CACHE_TTL_SECONDS : ℤ := 60 * 60

/-- The `Rates` dataclass of `rates.py`: base currency, rate mapping
(a finite dict, embedded as an association list) and capture timestamp. -/
structure Rates where
  base : String
  rates : List (String × ℚ)
  timestamp : ℤ
deriving DecidableEq

/-- `Rates.convert` from `rates.py`, line for line: the `src == dst`
short-circuit, resolution of the amount into base-currency terms
(`usd_amount`), and resolution of the target.  `ValueError` is embedded as
`Except.error` carrying the formatted message. -/
def Rates.convert (r : Rates) (amount : ℚ) (src dst : String) : Except String ℚ :=
  if src = dst then Except.ok amount
  else
    let usd_amount : Except String ℚ :=
      if src = r.base then Except.ok amount
      else
        match r.rates.lookup src with
        | none => Except.error ("Unknown or invalid source currency: " ++ src)
        | some src_rate =>
          if src_rate = 0 then Except.error ("Unknown or invalid source currency: " ++ src)
          else Except.ok (decDiv amount src_rate)
    match usd_amount with
    | Except.error e => Except.error e
    | Except.ok usd =>
      if dst = r.base then Except.ok usd
      else
        match r.rates.lookup dst with
        | none => Except.error ("Unknown or invalid destination currency: " ++ dst)
        | some dst_rate =>
          if dst_rate = 0 then Except.error ("Unknown or invalid destination currency: " ++ dst)
          else Except.ok (decMul usd dst_rate)

/-- `format_decimal` from `rates.py`: `value.quantize(Decimal(10) ** -places,
rounding=ROUND_HALF_UP)`.  `quantize` signals `InvalidOperation` (raised, since
the default context traps it) when the coefficient of the result would exceed
the context precision of 28 digits; otherwise the quantized value is returned
(the final `str` rendering is abstracted to the exact quantized value). -/
def format_decimal (value : ℚ) (places : ℕ := DECIMAL_PLACES) : Except String ℚ :=
  let coeff := roundHalfUp (value * (10 : ℚ) ^ places)
  if PREC < numDigits coeff.natAbs then
    Except.error "InvalidOperation"
  else
    Except.ok ((coeff : ℚ) / (10 : ℚ) ^ places)

/-! ### The fetch/cache pipeline of `rates.py`

Network I/O is abstracted by an oracle `net : String → String → Option ℚ`
giving the provider's answer for a currency pair (`none` = request failed or
no usable price), and by the parsed JSON bodies the two fallback providers
returned (`none` = request failed / unparseable).  The cache file is
abstracted by its parsed content (`none` = missing or unreadable). -/

/-- `MAJOR_CURRENCIES` from `rates.py`. -/
def MAJOR_CURRENCIES : List String :=
  ["USD", "EUR", "GBP", "JPY", "AUD", "CAD", "CHF", "CNY", "SEK", "NOK",
   "DKK", "PLN", "CZK", "HUF", "RON", "BGN", "HRK", "ISK", "RUB", "TRY",
   "KRW", "INR", "SGD", "HKD", "TWD", "THB", "MYR", "IDR", "PHP", "VND",
   "NZD", "PKR", "BDT", "LKR", "MMK", "KHR", "LAK", "NPR", "BTN", "MVR",
   "SAR", "AED", "QAR", "OMR", "KWD", "BHD", "JOD", "ILS", "EGP", "LBP",
   "ZAR", "NGN", "GHS", "KES", "UGX", "TZS", "ETB", "MAD", "TND", "DZD",
   "XOF", "XAF", "MXN", "BRL", "ARS", "CLP", "COP", "PEN", "UYU", "BOB",
   "PYG", "VEF", "GYD", "SRD", "AWG", "BBD", "BZD", "BMD", "KYD", "XCD"]

/-- `priority_currencies` from `fetch_yahoo_rates`. -/
def priority_currencies : List String :=
  ["EUR", "GBP", "JPY", "AUD", "CAD", "CHF", "CNY", "INR", "KRW", "SGD"]

/-- `_fetch_yahoo_rate`: identical pair short-circuits to `1.0`; otherwise
the provider (the `net` oracle) answers, or fails with `None`. -/
def _fetch_yahoo_rate (net : String → String → Option ℚ) (from_c to_c : String) : Option ℚ :=
  if from_c = to_c then some 1 else net from_c to_c

/-- Python dict assignment `rates[currency] = value`: replace the entry if
the key exists, otherwise append it. -/
def dictInsert (d : List (String × ℚ)) (k : String) (v : ℚ) : List (String × ℚ) :=
  if d.any (fun p => p.1 == k) then
    d.map (fun p => if p.1 == k then (k, v) else p)
  else d ++ [(k, v)]

/-- The loop body of `fetch_yahoo_rates`: store the USD→currency rate if it
came back positive, else try the reverse pair and store the context-rounded
reciprocal `Decimal("1.0") / reverse_rate` if that came back positive. -/
def fetchAndInsert (net : String → String → Option ℚ) (rates : List (String × ℚ))
    (currency : String) : List (String × ℚ) :=
  let tryReverse : List (String × ℚ) :=
    match _fetch_yahoo_rate net currency "USD" with
    | some reverse_rate =>
      if 0 < reverse_rate then dictInsert rates currency (decDiv 1 reverse_rate) else rates
    | none => rates
  match _fetch_yahoo_rate net "USD" currency with
  | some rate => if 0 < rate then dictInsert rates currency rate else tryReverse
  | none => tryReverse

/-- `fetch_yahoo_rates`: start from `{"USD": 1.0}`, fill in the priority
currencies (skipping USD), then the remaining major currencies, and fail if
fewer than 5 currencies were obtained. -/
def fetch_yahoo_rates (net : String → String → Option ℚ) (now : ℤ) : Except String Rates :=
  let rates0 : List (String × ℚ) := [("USD", 1)]
  let rates1 := priority_currencies.foldl
    (fun d currency => if currency = "USD" then d else fetchAndInsert net d currency) rates0
  let remaining_currencies := MAJOR_CURRENCIES.filter
    (fun c => !(priority_currencies.contains c) && c != "USD")
  let rates2 := remaining_currencies.foldl (fetchAndInsert net) rates1
  if rates2.length < 5 then
    Except.error ("Failed to fetch sufficient currency rates from Yahoo Finance. Got " ++
      toString rates2.length ++ " currencies.")
  else
    Except.ok { base := "USD", rates := rates2, timestamp := now }

/-- Parsed body of the ECB fallback response (`exchangerate.host`). -/
structure EcbData where
  base : Option String
  rates : Option (List (String × ℚ))

/-- Parsed body of the Open Exchange Rates fallback response (`open.er-api.com`). -/
structure OerData where
  result : Option String
  base_code : Option String
  rates : Option (List (String × ℚ))

/-- Fallback 2 of `fetch_latest_rates` (Open Exchange Rates): accepted when
`result == "success"` and `base_code == "EUR"`, rates taken from
`data2.get("rates", {})`; otherwise the final `RuntimeError` of
`fetch_latest_rates`. -/
def oerFallback (oer : Option OerData) (now : ℤ) : Except String Rates :=
  match oer with
  | some data2 =>
    if data2.result = some "success" ∧ data2.base_code = some "EUR" then
      Except.ok { base := "EUR", rates := data2.rates.getD [], timestamp := now }
    else
      Except.error
        "Failed to fetch latest rates from all providers (Yahoo Finance, ECB, Open Exchange Rates)"
  | none =>
    Except.error
      "Failed to fetch latest rates from all providers (Yahoo Finance, ECB, Open Exchange Rates)"

/-- `fetch_latest_rates`: Yahoo Finance first; on failure the ECB fallback
(requires a `rates` key and `base == "EUR"`), then the Open Exchange Rates
fallback; if all fail, the final `RuntimeError`. -/
def fetch_latest_rates (net : String → String → Option ℚ) (ecb : Option EcbData)
    (oer : Option OerData) (now : ℤ) : Except String Rates :=
  match fetch_yahoo_rates net now with
  | Except.ok r => Except.ok r
  | Except.error _ =>
    match ecb with
    | some data =>
      match data.rates with
      | some rs =>
        if data.base = some "EUR" then
          Except.ok { base := "EUR", rates := rs, timestamp := now }
        else oerFallback oer now
      | none => oerFallback oer now
    | none => oerFallback oer now

/-- Parsed content of the on-disk cache file (each field through `.get` with
a default in the source). -/
structure CacheRaw where
  base : Option String
  rates : Option (List (String × ℚ))
  timestamp : Option ℤ

/-- `load_cached_rates`: `None` when the file is missing or unreadable,
otherwise the snapshot rebuilt with defaults `base="USD"`, `rates={}`,
`timestamp=0`.  No validation of the stored values is performed. -/
def load_cached_rates (file : Option CacheRaw) : Option Rates :=
  match file with
  | none => none
  | some raw =>
    some { base := raw.base.getD "USD", rates := raw.rates.getD [], timestamp := raw.timestamp.getD 0 }

/-- Observable outcome of one `get_rates` call: its result, whether a
provider fetch was attempted, and the cache write it performed (best-effort
in the source; `save_cached_rates` swallows I/O errors). -/
structure GetRatesResult where
  result : Except String Rates
  fetched : Bool
  wrote : Option Rates

/-- `get_rates`: fresh-enough cache wins when `use_cache` is set (strict
`now - timestamp < CACHE_TTL_SECONDS` check, no fetch); otherwise fetch,
caching on success, and falling back to any loadable cache — however stale —
on failure, re-raising the fetch error only when no cache loads. -/
def get_rates (use_cache : Bool) (cacheFile : Option CacheRaw)
    (net : String → String → Option ℚ) (ecb : Option EcbData) (oer : Option OerData)
    (now : ℤ) : GetRatesResult :=
  let step2 : GetRatesResult :=
    match fetch_latest_rates net ecb oer now with
    | Except.ok latest => { result := Except.ok latest, fetched := true, wrote := some latest }
    | Except.error e =>
      match load_cached_rates cacheFile with
      | some cached => { result := Except.ok cached, fetched := true, wrote := none }
      | none => { result := Except.error e, fetched := true, wrote := none }
  if use_cache then
    match load_cached_rates cacheFile with
    | some cached =>
      if now - cached.timestamp < CACHE_TTL_SECONDS then
        { result := Except.ok cached, fetched := false, wrote := none }
      else step2
    | none => step2
  else step2

/-- The background worker of `POST /api/refresh` in `app.py`: runs
`get_rates(use_cache=False)`; on success replaces the in-memory slot
`_rates`, on any exception leaves it untouched (`except Exception: pass`). -/
def refresh_worker (slot : Option Rates) (cacheFile : Option CacheRaw)
    (net : String → String → Option ℚ) (ecb : Option EcbData) (oer : Option OerData)
    (now : ℤ) : Option Rates :=
  match (get_rates false cacheFile net ecb oer now).result with
  | Except.ok fresh => some fresh
  | Except.error _ => slot

/-- All stored rate values of a snapshot are strictly positive (the spec's
invariant for pipeline-constructed snapshots). -/
def allRatesPos (r : Rates) : Prop := ∀ p ∈ r.rates, 0 < p.2

/-- Responses of `GET /api/convert` in `app.py`: the JSON payloads the
handler itself returns (200 / 400 / 503), or an exception escaping the
handler (`unhandled`, which Flask turns into a non-JSON 500 error page). -/
inductive ApiResponse where
  | ok (amount : ℚ) (src dst : String) (converted fa fc : ℚ)
  | badRequest (msg : String)
  | unavailable (msg : String)
  | unhandled (msg : String)
deriving DecidableEq

/-- The success-payload construction of `convert_endpoint` (the `jsonify`
argument): formats the amount and the converted value with `format_decimal`;
since these calls sit outside any try/except, a raising `format_decimal`
makes the whole payload construction raise. -/
def buildPayload (amount : ℚ) (src dst : String) (converted : ℚ) : ApiResponse :=
  match format_decimal amount DECIMAL_PLACES, format_decimal converted DECIMAL_PLACES with
  | Except.ok fa, Except.ok fc => ApiResponse.ok amount src dst converted fa fc
  | Except.error e, _ => ApiResponse.unhandled e
  | _, Except.error e => ApiResponse.unhandled e

/-- `convert_endpoint` from `app.py`, after the amount string has parsed to
a `Decimal` (`amount`): ensure rates are loaded (503 on failure), convert
inside try/except (400 on conversion error), then build the success payload. -/
def convert_endpoint (amount : ℚ) (src dst : String) (slot : Option Rates)
    (ensure : Except String Rates) : ApiResponse :=
  let rr : Except String Rates :=
    match slot with
    | some r => Except.ok r
    | none => ensure
  match rr with
  | Except.error e => ApiResponse.unavailable ("Rates unavailable: " ++ e)
  | Except.ok r =>
    match r.convert amount src dst with
    | Except.error e => ApiResponse.badRequest e
    | Except.ok converted => buildPayload amount src dst converted

/-! ### Basic facts about the rounding model -/

lemma ten_zpow_pos (z : ℤ) : (0 : ℚ) < 10 ^ z := zpow_pos (by norm_num) z

lemma abs_roundHalfEven_sub (y : ℚ) : |(roundHalfEven y : ℚ) - y| ≤ 1 / 2 := by
  unfold roundHalfEven
  split
  · rename_i htie
    split
    · rw [abs_sub_comm, abs_le]
      constructor <;> nlinarith [Int.floor_le y]
    · rw [abs_le]
      push_cast
      constructor <;> nlinarith [Int.floor_le y]
  · rw [abs_sub_comm]
    exact abs_sub_round y

lemma numDigits_pos {n : ℕ} (hn : n ≠ 0) : 0 < numDigits n := by
  unfold numDigits
  exact List.length_pos.mpr (Nat.digits_ne_nil_iff_ne_zero.mpr hn)

lemma lt_pow_numDigits (n : ℕ) : (n : ℚ) < (10 : ℚ) ^ (numDigits n : ℤ) := by
  have h := Nat.lt_base_pow_length_digits (b := 10) (m := n) (by norm_num)
  have : (n : ℚ) < ((10 ^ numDigits n : ℕ) : ℚ) := by exact_mod_cast h
  simpa [zpow_natCast] using this

lemma pow_numDigits_le {n : ℕ} (hn : n ≠ 0) :
    (10 : ℚ) ^ (numDigits n : ℤ) ≤ 10 * (n : ℚ) := by
  have h := Nat.base_pow_length_digits_le 10 n (by norm_num) hn
  have : ((10 ^ numDigits n : ℕ) : ℚ) ≤ ((10 * n : ℕ) : ℚ) := by exact_mod_cast h
  push_cast at this
  simpa [zpow_natCast] using this

lemma abs_rat_eq (q : ℚ) : |q| = (q.num.natAbs : ℚ) / (q.den : ℚ) := by
  conv_lhs => rw [← Rat.num_div_den q]
  rw [abs_div, abs_of_pos (show (0 : ℚ) < (q.den : ℚ) by exact_mod_cast q.den_pos),
    Int.cast_natAbs, Int.cast_abs]

/-- Specification of `mag`: for `q ≠ 0`, `10^(mag q - 1) ≤ |q| < 10^(mag q)`. -/
lemma mag_spec {q : ℚ} (hq : q ≠ 0) :
    (10 : ℚ) ^ (mag q - 1) ≤ |q| ∧ |q| < (10 : ℚ) ^ (mag q) := by
  set p := q.num.natAbs with hp
  set d := q.den with hd
  have hp0 : p ≠ 0 := by
    simp only [hp, Int.natAbs_ne_zero]
    exact Rat.num_ne_zero.mpr hq
  have hd0 : d ≠ 0 := q.den_nz
  set np : ℤ := (numDigits p : ℤ) with hnp
  set nd : ℤ := (numDigits d : ℤ) with hnd
  have hppos : (0 : ℚ) < (p : ℚ) := by
    exact_mod_cast Nat.pos_of_ne_zero hp0
  have hdpos : (0 : ℚ) < (d : ℚ) := by
    exact_mod_cast Nat.pos_of_ne_zero hd0
  have hp1 : (p : ℚ) < (10 : ℚ) ^ np := lt_pow_numDigits p
  have hp2 : (10 : ℚ) ^ np ≤ 10 * (p : ℚ) := pow_numDigits_le hp0
  have hd1 : (d : ℚ) < (10 : ℚ) ^ nd := lt_pow_numDigits d
  have hd2 : (10 : ℚ) ^ nd ≤ 10 * (d : ℚ) := pow_numDigits_le hd0
  have habs : |q| = (p : ℚ) / (d : ℚ) := abs_rat_eq q
  set k : ℤ := np - nd with hk
  have hten : (10 : ℚ) ≠ 0 := by norm_num
  -- global bounds: 10^(k-1) ≤ |q| < 10^(k+1)
  have elow : (10 : ℚ) ^ np = 10 ^ (k - 1) * (10 * 10 ^ nd) := by
    rw [show (10 : ℚ) * 10 ^ nd = 10 ^ (1 + nd) by rw [zpow_add₀ hten, zpow_one],
      ← zpow_add₀ hten]
    congr 1
    omega
  have ehigh : (10 : ℚ) ^ (k + 1) * 10 ^ nd = 10 * 10 ^ np := by
    rw [← zpow_add₀ hten, show (10 : ℚ) * 10 ^ np = 10 ^ (1 + np) by
      rw [zpow_add₀ hten, zpow_one]]
    congr 1
    omega
  have hlow : (10 : ℚ) ^ (k - 1) ≤ |q| := by
    rw [habs, le_div_iff₀ hdpos]
    nlinarith [ten_zpow_pos (k - 1), ten_zpow_pos nd, ten_zpow_pos np]
  have hhigh : |q| < (10 : ℚ) ^ (k + 1) := by
    rw [habs, div_lt_iff₀ hdpos]
    nlinarith [ten_zpow_pos (k + 1), ten_zpow_pos nd, ten_zpow_pos np]
  have hmag : mag q = if (10 : ℚ) ^ k ≤ |q| then k + 1 else k := by
    unfold mag
    rfl
  by_cases hc : (10 : ℚ) ^ k ≤ |q|
  · rw [hmag, if_pos hc]
    constructor
    · simpa using hc
    · exact hhigh
  · rw [hmag, if_neg hc]
    constructor
    · exact hlow
    · exact lt_of_not_le hc

/-- One context-governed rounding perturbs its operand by at most
`5·10⁻²⁸` in relative terms (half an ulp at 28 significant digits). -/
lemma roundSig_abs_sub (q : ℚ) : |roundSig q - q| ≤ 5 / 10 ^ 28 * |q| := by
  by_cases hq : q = 0
  · subst hq
    simp [roundSig]
  · obtain ⟨hlow, hhigh⟩ := mag_spec hq
    have hten : (10 : ℚ) ≠ 0 := by norm_num
    set m : ℤ := mag q with hm
    set y : ℚ := q * (10 : ℚ) ^ ((PREC : ℤ) - m) with hy
    have htri := abs_roundHalfEven_sub y
    have hqeq : roundSig q - q = ((roundHalfEven y : ℚ) - y) * (10 : ℚ) ^ (m - (PREC : ℤ)) := by
      unfold roundSig
      rw [if_neg hq, ← hm, ← hy, sub_mul]
      congr 1
      rw [hy, mul_assoc, ← zpow_add₀ hten]
      norm_num
    rw [hqeq, abs_mul, abs_of_pos (ten_zpow_pos _)]
    have hb : |(roundHalfEven y : ℚ) - y| * (10 : ℚ) ^ (m - (PREC : ℤ)) ≤
        (1 / 2) * (10 : ℚ) ^ (m - (PREC : ℤ)) :=
      mul_le_mul_of_nonneg_right htri (le_of_lt (ten_zpow_pos _))
    refine le_trans hb ?_
    have e1 : ((1 : ℚ) / 2) * (10 : ℚ) ^ (m - (PREC : ℤ)) =
        (5 / 10 ^ 28) * (10 : ℚ) ^ (m - 1) := by
      rw [show m - (PREC : ℤ) = (m - 1) + (-27) by
          simp only [PREC]
          omega,
        zpow_add₀ hten]
      rw [show ((10 : ℚ) ^ (-27 : ℤ)) = ((10 : ℚ) ^ (27 : ℕ))⁻¹ by
          rw [zpow_neg]
          norm_num]
      norm_num
      ring
    rw [e1]
    exact mul_le_mul_of_nonneg_left hlow (by positivity)

/-- Rounding a positive value stays positive. -/
lemma roundSig_pos {q : ℚ} (h : 0 < q) : 0 < roundSig q := by
  have hb := roundSig_abs_sub q
  rw [abs_of_pos h] at hb
  have h1 := (abs_le.mp hb).1
  nlinarith

/-- Error-composition step: if `y` approximates `c` with relative error `e`,
then the rounded product `roundSig (y * k)` approximates `c * k` with relative
error `(1+e)(1+5·10⁻²⁸) - 1`. -/
lemma roundSig_step {k y c e : ℚ} (h : |y - c| ≤ e * |c|) :
    |roundSig (y * k) - c * k| ≤ ((1 + e) * (1 + 5 / 10 ^ 28) - 1) * |c * k| := by
  have h1 := roundSig_abs_sub (y * k)
  have h2 : |y * k - c * k| = |y - c| * |k| := by
    rw [← sub_mul, abs_mul]
  have hyc : |y| ≤ |c| + e * |c| := by
    have h4 := abs_sub_abs_le_abs_sub y c
    linarith
  have h3 : |y * k| ≤ (1 + e) * |c| * |k| := by
    rw [abs_mul]
    nlinarith [abs_nonneg k, abs_nonneg c]
  calc |roundSig (y * k) - c * k|
      ≤ |roundSig (y * k) - y * k| + |y * k - c * k| := abs_sub_le _ _ _
    _ ≤ 5 / 10 ^ 28 * ((1 + e) * |c| * |k|) + (e * |c|) * |k| := by
        rw [h2]
        have h5 : |y - c| * |k| ≤ (e * |c|) * |k| :=
          mul_le_mul_of_nonneg_right h (abs_nonneg k)
        have h6 : 5 / 10 ^ 28 * |y * k| ≤ 5 / 10 ^ 28 * ((1 + e) * |c| * |k|) :=
          mul_le_mul_of_nonneg_left h3 (by positivity)
        linarith
    _ = ((1 + e) * (1 + 5 / 10 ^ 28) - 1) * (|c| * |k|) := by ring
    _ = ((1 + e) * (1 + 5 / 10 ^ 28) - 1) * |c * k| := by rw [abs_mul]

/-! ### Behaviour of `Rates.convert` -/

/-- When the source side is invalid (absent, or rate exactly `0`), `convert`
raises naming the source code. -/
lemma convert_src_invalid {r : Rates} {x : ℚ} {src dst : String}
    (hsd : src ≠ dst) (hsb : src ≠ r.base)
    (h : r.rates.lookup src = none ∨ r.rates.lookup src = some 0) :
    r.convert x src dst = Except.error ("Unknown or invalid source currency: " ++ src) := by
  rcases h with h | h <;>
    simp [Rates.convert, if_neg hsd, if_neg hsb, h]

/-- When the source side resolves but the destination is invalid (absent, or
rate exactly `0`), `convert` raises naming the destination code. -/
lemma convert_dst_invalid {r : Rates} {x rs : ℚ} {src dst : String}
    (hsd : src ≠ dst) (hdb : dst ≠ r.base)
    (hs : src = r.base ∨ (r.rates.lookup src = some rs ∧ rs ≠ 0))
    (h : r.rates.lookup dst = none ∨ r.rates.lookup dst = some 0) :
    r.convert x src dst = Except.error ("Unknown or invalid destination currency: " ++ dst) := by
  by_cases hsb : src = r.base
  · rcases h with h | h <;>
      simp [Rates.convert, if_neg hsd, if_pos hsb, h, if_neg hdb]
  · rcases hs with hs | ⟨hls, hrs⟩
    · exact absurd hs hsb
    · rcases h with h | h <;>
        simp [Rates.convert, if_neg hsd, if_neg hsb, hls, hrs, h, if_neg hdb]

/-- When both sides resolve, `convert` computes via the base currency with
context-rounded `Decimal` arithmetic. -/
lemma convert_ok {r : Rates} {x rs rd : ℚ} {src dst : String}
    (hsd : src ≠ dst)
    (hs : src = r.base ∨ (r.rates.lookup src = some rs ∧ rs ≠ 0))
    (hd : dst = r.base ∨ (r.rates.lookup dst = some rd ∧ rd ≠ 0)) :
    r.convert x src dst =
      Except.ok (if dst = r.base then (if src = r.base then x else decDiv x rs)
                 else decMul (if src = r.base then x else decDiv x rs) rd) := by
  by_cases hsb : src = r.base
  · by_cases hdb : dst = r.base
    · simp [Rates.convert, if_neg hsd, if_pos hsb, if_pos hdb]
    · rcases hd with hd | ⟨hld, hrd⟩
      · exact absurd hd hdb
      · simp [Rates.convert, if_neg hsd, if_pos hsb, if_neg hdb, hld, hrd]
  · rcases hs with hs | ⟨hls, hrs⟩
    · exact absurd hs hsb
    · by_cases hdb : dst = r.base
      · simp [Rates.convert, if_neg hsd, if_neg hsb, hls, hrs, if_pos hdb]
      · rcases hd with hd | ⟨hld, hrd⟩
        · exact absurd hd hdb
        · simp [Rates.convert, if_neg hsd, if_neg hsb, hls, hrs, if_neg hdb, hld, hrd]

/-! ### Claims about `Rates.convert` -/

/-- The `src == dst` short-circuit returns the amount unchanged. -/
lemma convert_self (r : Rates) (x : ℚ) (a : String) : r.convert x a a = Except.ok x := by
  unfold Rates.convert
  rw [if_pos rfl]

/-- C10: for every snapshot `S`, amount `x` and currency code `a`,
`S.convert(x, a, a)` returns `x` exactly — no rounding and no rate lookup —
whether or not `a` is in `S.rates` or equals the base currency. -/
theorem claim_C10 (r : Rates) (x : ℚ) (a : String) :
    r.convert x a a = Except.ok x :=
  convert_self r x a

/-- C1: for `src ≠ dst` with both sides available and valid, `convert`
resolves the amount into base terms (`x` if `src` is the base, else
`x / rates[src]` under the 28-digit `Decimal` context) and returns it
directly when `dst` is the base, else multiplies by `rates[dst]`; in
particular `Rates(base="EUR", rates={"USD": 1.2})` converts 10 EUR to
12 USD and 12 USD to 10 EUR. -/
theorem claim_C1 :
    (∀ (r : Rates) (x rs rd : ℚ) (src dst : String),
      src ≠ dst →
      (src = r.base ∨ (r.rates.lookup src = some rs ∧ rs ≠ 0)) →
      (dst = r.base ∨ (r.rates.lookup dst = some rd ∧ rd ≠ 0)) →
      r.convert x src dst =
        Except.ok (if dst = r.base then (if src = r.base then x else decDiv x rs)
                   else decMul (if src = r.base then x else decDiv x rs) rd))
    ∧ Rates.convert ⟨"EUR", [("USD", 6 / 5)], 0⟩ 10 "EUR" "USD" = Except.ok 12
    ∧ Rates.convert ⟨"EUR", [("USD", 6 / 5)], 0⟩ 12 "USD" "EUR" = Except.ok 10 := by
  refine ⟨fun r x rs rd src dst hsd hs hd => convert_ok hsd hs hd, by
    simp only [Rates.convert, List.lookup, String.reduceEq, String.reduceAppend, reduceIte, beq_iff_eq, beq_self_eq_true, reduceCtorEq]
    norm_num [decDiv, decMul, roundSig, mag, numDigits, roundHalfEven, round_eq, PREC, Int.fract], by
    simp only [Rates.convert, List.lookup, String.reduceEq, String.reduceAppend, reduceIte, beq_iff_eq, beq_self_eq_true, reduceCtorEq]
    norm_num [decDiv, decMul, roundSig, mag, numDigits, roundHalfEven, round_eq, PREC, Int.fract]⟩

/-- Witness for C1 at `Rates(base="EUR", rates={"USD": 1.2})`, converting
10 EUR to USD. -/
theorem claim_C1_witness :
    Rates.convert ⟨"EUR", [("USD", 6 / 5)], 0⟩ 10 "EUR" "USD" = Except.ok 12 := by
  have h := claim_C1.1 ⟨"EUR", [("USD", 6 / 5)], 0⟩ 10 1 (6 / 5) "EUR" "USD"
    (by decide) (Or.inl rfl) (Or.inr ⟨rfl, by norm_num⟩)
  rw [h]
  simp only [Rates.convert, List.lookup, String.reduceEq, String.reduceAppend, reduceIte, beq_iff_eq, beq_self_eq_true, reduceCtorEq]
  norm_num [decDiv, decMul, roundSig, mag, numDigits, roundHalfEven, round_eq, PREC, Int.fract]

/-- C2 counterexample: the code checks `rate == 0`, not `rate ≤ 0`.  With a
strictly negative destination rate the conversion does **not** fail with
`InvalidCurrency`: it happily returns a negative amount. -/
theorem claim_C2_counterexample :
    Rates.convert ⟨"USD", [("EUR", -1)], 0⟩ 10 "USD" "EUR" = Except.ok (-10) := by
  simp only [Rates.convert, List.lookup, String.reduceEq, String.reduceAppend, reduceIte, beq_iff_eq, beq_self_eq_true, reduceCtorEq]
  norm_num [decDiv, decMul, roundSig, mag, numDigits, roundHalfEven, round_eq, PREC, Int.fract]

/-- C2 (amended): a conversion fails with `InvalidCurrency` naming the failing
side when the code is absent from the mapping or its rate is exactly `0`
(the code tests `== 0`, not `≤ 0`); a strictly negative rate is accepted and
used in the arithmetic. -/
theorem claim_C2_amended :
    (∀ (r : Rates) (x : ℚ) (src dst : String),
      src ≠ dst → src ≠ r.base →
      (r.rates.lookup src = none ∨ r.rates.lookup src = some 0) →
      r.convert x src dst = Except.error ("Unknown or invalid source currency: " ++ src))
    ∧ (∀ (r : Rates) (x rs : ℚ) (src dst : String),
      src ≠ dst → dst ≠ r.base →
      (src = r.base ∨ (r.rates.lookup src = some rs ∧ rs ≠ 0)) →
      (r.rates.lookup dst = none ∨ r.rates.lookup dst = some 0) →
      r.convert x src dst = Except.error ("Unknown or invalid destination currency: " ++ dst))
    ∧ (∀ (r : Rates) (x rs : ℚ) (src dst : String),
      src ≠ dst → src ≠ r.base → dst = r.base →
      r.rates.lookup src = some rs → rs < 0 →
      r.convert x src dst = Except.ok (decDiv x rs)) := by
  refine ⟨fun r x src dst hsd hsb h => convert_src_invalid hsd hsb h,
    fun r x rs src dst hsd hdb hs h => convert_dst_invalid hsd hdb hs h,
    fun r x rs src dst hsd hsb hdb hls hrs => ?_⟩
  have h := @convert_ok r x rs 1 src dst hsd (Or.inr ⟨hls, ne_of_lt hrs⟩) (Or.inl hdb)
  rw [h, if_pos hdb, if_neg hsb]

/-- Witness for the amended C2: an unknown source code fails naming the
source side. -/
theorem claim_C2_amended_witness :
    Rates.convert ⟨"USD", [("EUR", 2)], 0⟩ 10 "GBP" "EUR" =
      Except.error "Unknown or invalid source currency: GBP" :=
  claim_C2_amended.1 ⟨"USD", [("EUR", 2)], 0⟩ 10 "GBP" "EUR"
    (by decide) (by decide) (Or.inl rfl)

/-- C8: a stored rate of exactly `0` is rejected just like an unknown code —
the `== 0` test guards the division `amount / rates[src]` and the
multiplication by `rates[dst]`, so neither operation is ever reached with a
zero rate; in particular `Rates(base="USD", rates={"EUR": 0})` fails to
convert 10 USD to EUR with the `InvalidCurrency` message. -/
theorem claim_C8 :
    (∀ (r : Rates) (x : ℚ) (src dst : String),
      src ≠ dst → src ≠ r.base →
      r.rates.lookup src = some 0 →
      r.convert x src dst = Except.error ("Unknown or invalid source currency: " ++ src))
    ∧ (∀ (r : Rates) (x rs : ℚ) (src dst : String),
      src ≠ dst → dst ≠ r.base →
      (src = r.base ∨ (r.rates.lookup src = some rs ∧ rs ≠ 0)) →
      r.rates.lookup dst = some 0 →
      r.convert x src dst = Except.error ("Unknown or invalid destination currency: " ++ dst))
    ∧ Rates.convert ⟨"USD", [("EUR", 0)], 0⟩ 10 "USD" "EUR" =
        Except.error "Unknown or invalid destination currency: EUR" := by
  refine ⟨fun r x src dst hsd hsb h => convert_src_invalid hsd hsb (Or.inr h),
    fun r x rs src dst hsd hdb hs h => convert_dst_invalid hsd hdb hs (Or.inr h),
    by
    simp only [Rates.convert, List.lookup, String.reduceEq, String.reduceAppend, reduceIte, beq_iff_eq, beq_self_eq_true, reduceCtorEq]⟩

/-- Witness for C8 at `Rates(base="USD", rates={"EUR": 0})`. -/
theorem claim_C8_witness :
    Rates.convert ⟨"USD", [("EUR", 0)], 0⟩ 10 "USD" "EUR" =
      Except.error "Unknown or invalid destination currency: EUR" :=
  claim_C8.2.1 ⟨"USD", [("EUR", 0)], 0⟩ 10 1 "USD" "EUR"
    (by decide) (by decide) (Or.inl rfl) rfl

/-! ### C3: the round-trip law under 28-digit decimal arithmetic -/

lemma decMul_eq (a b : ℚ) : decMul a b = roundSig (a * b) := rfl

lemma decDiv_eq (a b : ℚ) : decDiv a b = roundSig (a * b⁻¹) := by
  rw [decDiv, div_eq_mul_inv]

/-- `roundSig_step` with the accumulated error weakened to a convenient
constant. -/
lemma roundSig_step_le {k y c e f : ℚ} (h : |y - c| ≤ e * |c|)
    (hef : (1 + e) * (1 + 5 / 10 ^ 28) - 1 ≤ f) :
    |roundSig (y * k) - c * k| ≤ f * |c * k| :=
  le_trans (roundSig_step h) (mul_le_mul_of_nonneg_right hef (abs_nonneg _))

/-- C3: for every snapshot, amount `x` and pair `(a, b)` both present with
strictly positive rates, the round trip `convert(convert(x, a, b), b, a)`
returns `x` to within `10⁻¹²` relative error: at most four context roundings
occur, each perturbing the value by at most `5·10⁻²⁸` relatively. -/
theorem claim_C3 (r : Rates) (x ra rb : ℚ) (a b : String)
    (ha : r.rates.lookup a = some ra) (hb : r.rates.lookup b = some rb)
    (hra : 0 < ra) (hrb : 0 < rb) :
    ∃ y z, r.convert x a b = Except.ok y ∧ r.convert y b a = Except.ok z ∧
      |z - x| ≤ 1 / 10 ^ 12 * |x| := by
  have hra0 : ra ≠ 0 := ne_of_gt hra
  have hrb0 : rb ≠ 0 := ne_of_gt hrb
  by_cases hab : a = b
  · subst hab
    refine ⟨x, x, convert_self r x a, convert_self r x a, ?_⟩
    have h0 : |x - x| = 0 := by simp
    rw [h0]
    positivity
  · by_cases hba : a = r.base
    · have hbb : b ≠ r.base := fun h => hab (hba.trans h.symm)
      have hfwd := @convert_ok r x ra rb a b hab (Or.inl hba) (Or.inr ⟨hb, hrb0⟩)
      rw [if_neg hbb, if_pos hba] at hfwd
      have hback := @convert_ok r (decMul x rb) rb ra b a (Ne.symm hab)
        (Or.inr ⟨hb, hrb0⟩) (Or.inl hba)
      rw [if_pos hba, if_neg hbb] at hback
      refine ⟨decMul x rb, decDiv (decMul x rb) rb, hfwd, hback, ?_⟩
      have s1 : |roundSig (x * rb) - x * rb| ≤ 1 / 10 ^ 27 * |x * rb| :=
        @roundSig_step_le rb x x 0 (1 / 10 ^ 27) (by simp) (by norm_num)
      have s2 : |roundSig (roundSig (x * rb) * rb⁻¹) - x * rb * rb⁻¹| ≤
          1 / 10 ^ 12 * |x * rb * rb⁻¹| :=
        @roundSig_step_le rb⁻¹ (roundSig (x * rb)) (x * rb) (1 / 10 ^ 27) (1 / 10 ^ 12) s1
          (by norm_num)
      rw [mul_assoc, mul_inv_cancel₀ hrb0, mul_one] at s2
      simp only [decDiv_eq, decMul_eq]
      exact s2
    · by_cases hbb : b = r.base
      · have hfwd := @convert_ok r x ra rb a b hab (Or.inr ⟨ha, hra0⟩) (Or.inl hbb)
        rw [if_pos hbb, if_neg hba] at hfwd
        have hback := @convert_ok r (decDiv x ra) rb ra b a (Ne.symm hab)
          (Or.inl hbb) (Or.inr ⟨ha, hra0⟩)
        rw [if_neg hba, if_pos hbb] at hback
        refine ⟨decDiv x ra, decMul (decDiv x ra) ra, hfwd, hback, ?_⟩
        have s1 : |roundSig (x * ra⁻¹) - x * ra⁻¹| ≤ 1 / 10 ^ 27 * |x * ra⁻¹| :=
          @roundSig_step_le ra⁻¹ x x 0 (1 / 10 ^ 27) (by simp) (by norm_num)
        have s2 : |roundSig (roundSig (x * ra⁻¹) * ra) - x * ra⁻¹ * ra| ≤
            1 / 10 ^ 12 * |x * ra⁻¹ * ra| :=
          @roundSig_step_le ra (roundSig (x * ra⁻¹)) (x * ra⁻¹) (1 / 10 ^ 27) (1 / 10 ^ 12) s1
            (by norm_num)
        rw [mul_assoc, inv_mul_cancel₀ hra0, mul_one] at s2
        simp only [decMul_eq, decDiv_eq]
        exact s2
      · have hfwd := @convert_ok r x ra rb a b hab (Or.inr ⟨ha, hra0⟩) (Or.inr ⟨hb, hrb0⟩)
        rw [if_neg hbb, if_neg hba] at hfwd
        have hback := @convert_ok r (decMul (decDiv x ra) rb) rb ra b a (Ne.symm hab)
          (Or.inr ⟨hb, hrb0⟩) (Or.inr ⟨ha, hra0⟩)
        rw [if_neg hba, if_neg hbb] at hback
        refine ⟨decMul (decDiv x ra) rb,
          decMul (decDiv (decMul (decDiv x ra) rb) rb) ra, hfwd, hback, ?_⟩
        have s1 : |roundSig (x * ra⁻¹) - x * ra⁻¹| ≤ 1 / 10 ^ 27 * |x * ra⁻¹| :=
          @roundSig_step_le ra⁻¹ x x 0 (1 / 10 ^ 27) (by simp) (by norm_num)
        have s2 : |roundSig (roundSig (x * ra⁻¹) * rb) - x * ra⁻¹ * rb| ≤
            2 / 10 ^ 27 * |x * ra⁻¹ * rb| :=
          @roundSig_step_le rb (roundSig (x * ra⁻¹)) (x * ra⁻¹) (1 / 10 ^ 27) (2 / 10 ^ 27) s1
            (by norm_num)
        have s3 : |roundSig (roundSig (roundSig (x * ra⁻¹) * rb) * rb⁻¹) -
            x * ra⁻¹ * rb * rb⁻¹| ≤ 3 / 10 ^ 27 * |x * ra⁻¹ * rb * rb⁻¹| :=
          @roundSig_step_le rb⁻¹ (roundSig (roundSig (x * ra⁻¹) * rb)) (x * ra⁻¹ * rb)
            (2 / 10 ^ 27) (3 / 10 ^ 27) s2 (by norm_num)
        rw [mul_assoc (x * ra⁻¹), mul_inv_cancel₀ hrb0, mul_one] at s3
        have s4 : |roundSig (roundSig (roundSig (roundSig (x * ra⁻¹) * rb) * rb⁻¹) * ra) -
            x * ra⁻¹ * ra| ≤ 1 / 10 ^ 12 * |x * ra⁻¹ * ra| :=
          @roundSig_step_le ra (roundSig (roundSig (roundSig (x * ra⁻¹) * rb) * rb⁻¹))
            (x * ra⁻¹) (3 / 10 ^ 27) (1 / 10 ^ 12) s3 (by norm_num)
        rw [mul_assoc, inv_mul_cancel₀ hra0, mul_one] at s4
        simp only [decMul_eq, decDiv_eq]
        exact s4

/-- Witness for C3 on `Rates(base="EUR", rates={"USD": 1.2, "GBP": 2})`,
round-tripping 1 USD through GBP. -/
theorem claim_C3_witness :
    ∃ y z,
      Rates.convert ⟨"EUR", [("USD", 6 / 5), ("GBP", 2)], 0⟩ 1 "USD" "GBP" = Except.ok y ∧
      Rates.convert ⟨"EUR", [("USD", 6 / 5), ("GBP", 2)], 0⟩ y "GBP" "USD" = Except.ok z ∧
      |z - 1| ≤ 1 / 10 ^ 12 * |(1 : ℚ)| :=
  claim_C3 ⟨"EUR", [("USD", 6 / 5), ("GBP", 2)], 0⟩ 1 (6 / 5) 2 "USD" "GBP"
    (by simp [List.lookup]) (by simp [List.lookup]) (by norm_num) (by norm_num)

/-! ### C4–C6: the cache/fetch pipeline -/

/-- C4: with `use_cache=True`, a cache record that loads and whose age
`now - timestamp` is strictly below the 3600-second TTL is returned as-is:
no provider fetch is attempted and nothing is written back. -/
theorem claim_C4 (cacheFile : Option CacheRaw) (net : String → String → Option ℚ)
    (ecb : Option EcbData) (oer : Option OerData) (now : ℤ) (c : Rates)
    (hload : load_cached_rates cacheFile = some c)
    (hfresh : now - c.timestamp < CACHE_TTL_SECONDS) :
    get_rates true cacheFile net ecb oer now =
      { result := Except.ok c, fetched := false, wrote := none } := by
  simp [get_rates, hload, hfresh]

/-- Witness for C4: a 100-second-old cache record is served with no fetch. -/
theorem claim_C4_witness :
    get_rates true (some ⟨some "EUR", some [("USD", 1)], some 100⟩) (fun _ _ => none)
      none none 200 =
      { result := Except.ok ⟨"EUR", [("USD", 1)], 100⟩, fetched := false, wrote := none } :=
  claim_C4 _ _ _ _ 200 ⟨"EUR", [("USD", 1)], 100⟩ rfl (by norm_num [CACHE_TTL_SECONDS])

/-- C5: whenever the provider fetch fails, `get_rates` returns whatever cache
record loads — regardless of its age and of `use_cache` — and re-raises the
fetch failure only when no cache record loads. -/
theorem claim_C5 (use_cache : Bool) (cacheFile : Option CacheRaw)
    (net : String → String → Option ℚ) (ecb : Option EcbData) (oer : Option OerData)
    (now : ℤ) (e : String)
    (hfail : fetch_latest_rates net ecb oer now = Except.error e) :
    (get_rates use_cache cacheFile net ecb oer now).result =
      (match load_cached_rates cacheFile with
       | some cached => Except.ok cached
       | none => Except.error e) := by
  cases hc : load_cached_rates cacheFile with
  | none => cases use_cache <;> simp [get_rates, hfail, hc]
  | some cached =>
    cases use_cache
    · simp [get_rates, hfail, hc]
    · by_cases hf : now - cached.timestamp < CACHE_TTL_SECONDS <;>
        simp [get_rates, hfail, hc, hf]

/-- Witness for C5: every provider failing (oracle always `None`, both
fallback bodies absent) with no cache file yields the `RatesUnavailable`
error. -/
theorem claim_C5_witness :
    (get_rates false none (fun _ _ => none) none none 0).result =
      Except.error
        "Failed to fetch latest rates from all providers (Yahoo Finance, ECB, Open Exchange Rates)" :=
  claim_C5 false none (fun _ _ => none) none none 0
    "Failed to fetch latest rates from all providers (Yahoo Finance, ECB, Open Exchange Rates)"
    (by rfl)

/-- C6: the refresh worker (`POST /api/refresh`) is atomic on failure — if
`get_rates(use_cache=False)` fails the in-memory slot keeps its previous
value, and on success the slot is replaced by the fresh snapshot. -/
theorem claim_C6 (slot : Option Rates) (cacheFile : Option CacheRaw)
    (net : String → String → Option ℚ) (ecb : Option EcbData) (oer : Option OerData)
    (now : ℤ) (e : String) (f : Rates) :
    ((get_rates false cacheFile net ecb oer now).result = Except.error e →
      refresh_worker slot cacheFile net ecb oer now = slot) ∧
    ((get_rates false cacheFile net ecb oer now).result = Except.ok f →
      refresh_worker slot cacheFile net ecb oer now = some f) := by
  constructor <;> intro h <;> simp [refresh_worker, h]

/-- Witness for C6: with every provider failing and no cache, the slot keeps
its previous snapshot. -/
theorem claim_C6_witness :
    refresh_worker (some ⟨"EUR", [("USD", 1)], 0⟩) none (fun _ _ => none) none none 0 =
      some ⟨"EUR", [("USD", 1)], 0⟩ :=
  (claim_C6 (some ⟨"EUR", [("USD", 1)], 0⟩) none (fun _ _ => none) none none 0
    "Failed to fetch latest rates from all providers (Yahoo Finance, ECB, Open Exchange Rates)"
    ⟨"EUR", [("USD", 1)], 0⟩).1 (by rfl)

/-! ### C7: positivity of pipeline-constructed snapshots -/

lemma dictInsert_pos {d : List (String × ℚ)} {k : String} {v : ℚ}
    (hd : ∀ p ∈ d, 0 < p.2) (hv : 0 < v) : ∀ p ∈ dictInsert d k v, 0 < p.2 := by
  intro p hp
  unfold dictInsert at hp
  split at hp
  · rw [List.mem_map] at hp
    obtain ⟨q, hq, hpq⟩ := hp
    split at hpq
    · rw [← hpq]
      exact hv
    · rw [← hpq]
      exact hd q hq
  · rw [List.mem_append] at hp
    rcases hp with hp | hp
    · exact hd p hp
    · rw [List.mem_singleton] at hp
      rw [hp]
      exact hv

lemma foldl_pos {α : Type} (f : List (String × ℚ) → α → List (String × ℚ))
    (hf : ∀ d a, (∀ p ∈ d, 0 < p.2) → ∀ p ∈ f d a, 0 < p.2) :
    ∀ (l : List α) (d0 : List (String × ℚ)), (∀ p ∈ d0, 0 < p.2) →
      ∀ p ∈ l.foldl f d0, 0 < p.2 := by
  intro l
  induction l with
  | nil =>
    intro d0 h0
    simpa using h0
  | cons a t ih =>
    intro d0 h0
    simpa [List.foldl_cons] using ih (f d0 a) (hf d0 a h0)

lemma fetchAndInsert_pos (net : String → String → Option ℚ) (d : List (String × ℚ))
    (c : String) (hd : ∀ p ∈ d, 0 < p.2) : ∀ p ∈ fetchAndInsert net d c, 0 < p.2 := by
  intro p hp
  simp only [fetchAndInsert] at hp
  split at hp
  · rename_i rate heq
    split at hp
    · rename_i hrate
      exact dictInsert_pos hd hrate p hp
    · split at hp
      · rename_i rr heq2
        split at hp
        · rename_i hrr
          exact dictInsert_pos hd (roundSig_pos (div_pos one_pos hrr)) p hp
        · exact hd p hp
      · exact hd p hp
  · split at hp
    · rename_i rr heq2
      split at hp
      · rename_i hrr
        exact dictInsert_pos hd (roundSig_pos (div_pos one_pos hrr)) p hp
      · exact hd p hp
    · exact hd p hp

/-- Every snapshot `fetch_yahoo_rates` builds has strictly positive rates:
the starting `{"USD": 1.0}` is positive and every insertion is guarded by a
`> 0` test (directly, or on the reverse rate before taking the reciprocal). -/
lemma fetch_yahoo_rates_pos {net : String → String → Option ℚ} {now : ℤ} {r : Rates}
    (h : fetch_yahoo_rates net now = Except.ok r) : allRatesPos r := by
  simp only [fetch_yahoo_rates] at h
  split at h
  · exact absurd h (by simp)
  · rw [Except.ok.injEq] at h
    subst h
    intro p hp
    refine foldl_pos (fetchAndInsert net) (fun d a hd => fetchAndInsert_pos net d a hd)
      _ _ ?_ p hp
    refine foldl_pos _ ?_ _ _ ?_
    · intro d a hd q hq
      by_cases ha : a = "USD"
      · rw [if_pos ha] at hq
        exact hd q hq
      · rw [if_neg ha] at hq
        exact fetchAndInsert_pos net d a hd q hq
    · intro q hq
      rw [List.mem_singleton] at hq
      rw [hq]
      norm_num

lemma oerFallback_pos {oer : Option OerData} {now : ℤ} {r : Rates}
    (hoer : ∀ d2, oer = some d2 → ∀ p ∈ d2.rates.getD [], 0 < p.2)
    (hok : oerFallback oer now = Except.ok r) : allRatesPos r := by
  unfold oerFallback at hok
  split at hok
  · rename_i data2
    split at hok
    · rw [Except.ok.injEq] at hok
      subst hok
      intro p hp
      exact hoer data2 rfl p hp
    · exact absurd hok (by simp)
  · exact absurd hok (by simp)

/-- C7 counterexample: `load_cached_rates` performs no validation, so a cache
file recording a negative rate deserializes into a snapshot that violates the
strict-positivity invariant. -/
theorem claim_C7_counterexample :
    load_cached_rates (some ⟨some "USD", some [("EUR", -1)], some 0⟩) =
      some ⟨"USD", [("EUR", -1)], 0⟩ ∧
    ¬ allRatesPos ⟨"USD", [("EUR", -1)], 0⟩ := by
  constructor
  · rfl
  · intro h
    have h2 := h ("EUR", -1) (by simp)
    norm_num at h2

/-- C7 (amended): only `fetch_yahoo_rates` guarantees strictly positive rates
unconditionally; the two fallback provider branches of `fetch_latest_rates`
and `load_cached_rates` copy the incoming numeric values unfiltered, so their
snapshots satisfy the invariant exactly when all incoming values are
positive. -/
theorem claim_C7_amended :
    (∀ (net : String → String → Option ℚ) (now : ℤ) (r : Rates),
      fetch_yahoo_rates net now = Except.ok r → allRatesPos r) ∧
    (∀ (net : String → String → Option ℚ) (ecb : Option EcbData) (oer : Option OerData)
      (now : ℤ) (r : Rates),
      (∀ d rs, ecb = some d → d.rates = some rs → ∀ p ∈ rs, 0 < p.2) →
      (∀ d2, oer = some d2 → ∀ p ∈ d2.rates.getD [], 0 < p.2) →
      fetch_latest_rates net ecb oer now = Except.ok r → allRatesPos r) ∧
    (∀ (raw : CacheRaw) (r : Rates),
      (∀ p ∈ raw.rates.getD [], 0 < p.2) →
      load_cached_rates (some raw) = some r → allRatesPos r) := by
  refine ⟨fun net now r h => fetch_yahoo_rates_pos h, ?_, ?_⟩
  · intro net ecb oer now r hecb hoer hok
    simp only [fetch_latest_rates] at hok
    split at hok
    · rename_i ry heq
      rw [Except.ok.injEq] at hok
      subst hok
      exact fetch_yahoo_rates_pos heq
    · split at hok
      · rename_i data
        split at hok
        · rename_i rs hr
          split at hok
          · rename_i hb
            rw [Except.ok.injEq] at hok
            subst hok
            intro p hp
            exact hecb data rs rfl hr p hp
          · exact oerFallback_pos hoer hok
        · exact oerFallback_pos hoer hok
      · exact oerFallback_pos hoer hok
  · intro raw r hpos hload
    simp only [load_cached_rates, Option.some.injEq] at hload
    subst hload
    intro p hp
    exact hpos p hp

/-- Witness for the amended C7: a cache file whose values are all positive
loads into a snapshot satisfying the invariant. -/
theorem claim_C7_amended_witness :
    allRatesPos ⟨"USD", [("EUR", 2)], 0⟩ :=
  claim_C7_amended.2.2 ⟨some "USD", some [("EUR", 2)], some 0⟩ ⟨"USD", [("EUR", 2)], 0⟩
    (by
      intro p hp
      simp only [Option.getD_some, List.mem_singleton] at hp
      rw [hp]
      norm_num)
    rfl

/-! ### C9: the convert endpoint can let an exception escape -/

/-- A raising `format_decimal` on the amount makes the payload construction
raise, regardless of the second format call. -/
lemma buildPayload_raises {amount : ℚ} {e : String} (src dst : String) (converted : ℚ)
    (hf : format_decimal amount DECIMAL_PLACES = Except.error e) :
    buildPayload amount src dst converted = ApiResponse.unhandled e := by
  unfold buildPayload
  rw [hf]
  cases format_decimal converted DECIMAL_PLACES <;> rfl

lemma format_decimal_1e30 :
    format_decimal ((10 : ℚ) ^ 30) DECIMAL_PLACES = Except.error "InvalidOperation" := by
  have hcast : ((10 : ℚ) ^ 30 * (10 : ℚ) ^ DECIMAL_PLACES) = ((10 ^ 34 : ℤ) : ℚ) := by
    norm_num [DECIMAL_PLACES]
  have hcoeff : roundHalfUp ((10 : ℚ) ^ 30 * (10 : ℚ) ^ DECIMAL_PLACES) = 10 ^ 34 := by
    unfold roundHalfUp
    rw [if_pos (by positivity), hcast, Int.floor_int_add]
    norm_num
  have hdig : numDigits ((10 ^ 34 : ℤ)).natAbs = 35 := by
    have h1 : ((10 ^ 34 : ℤ)).natAbs = 10 ^ 34 := by
      rw [Int.natAbs_pow]
      norm_num
    rw [h1]
    unfold numDigits
    rw [Nat.digits_len 10 _ (by norm_num) (by positivity), Nat.log_pow (by norm_num)]
  simp only [format_decimal, hcoeff, hdig, PREC]
  rw [if_pos (by norm_num)]

/-- C9 (code bug): with rates loaded, `GET /api/convert` for the valid amount
`1e30` and `src = dst = "USD"` reaches the success-payload construction, where
`format_decimal` raises `decimal.InvalidOperation` (the quantized coefficient
has 35 digits, beyond the 28-digit precision) outside any try/except: the
exception escapes the handler instead of a JSON response being returned. -/
theorem claim_C9_bug :
    convert_endpoint ((10 : ℚ) ^ 30) "USD" "USD" (some ⟨"USD", [], 0⟩)
      (Except.ok ⟨"USD", [], 0⟩) = ApiResponse.unhandled "InvalidOperation" :=
  calc convert_endpoint ((10 : ℚ) ^ 30) "USD" "USD" (some ⟨"USD", [], 0⟩)
        (Except.ok ⟨"USD", [], 0⟩)
      = buildPayload ((10 : ℚ) ^ 30) "USD" "USD" ((10 : ℚ) ^ 30) := rfl
    _ = ApiResponse.unhandled "InvalidOperation" :=
        buildPayload_raises "USD" "USD" ((10 : ℚ) ^ 30) format_decimal_1e30

end CurrencyConverter
